import Mathlib

/-!
Verification of the ConvoQuest application (`app.py`): a shallow embedding of
its conversation handler, response sanitizer, and quiz session logic, together
with proofs of the specified properties.

Python strings are modelled as `List Char` (Python operates on code points),
Python's `json` values as the inductive type `Json`, and the mutable
`st.session_state` fields as an explicit state record threaded through the
action handlers.
-/

namespace ConvoQuest

/-- A parsed JSON value, as produced by Python's `json.loads`.
Numbers keep their source lexeme (the claims under study never compare
numeric values, so no float semantics are needed); `null` doubles as
Python's `None`. -/
inductive Json where
  | null : Json
  | bool (b : Bool) : Json
  | num (lexeme : List Char) : Json
  | str (s : List Char) : Json
  | arr (elems : List Json) : Json
  | obj (fields : List (List Char × Json)) : Json

mutual

/-- Structural equality on `Json`, modelling Python `==` on the values the
program compares (strings, numbers, `None`, lists). -/
def Json.beq : Json → Json → Bool
  | .null, .null => true
  | .bool x, .bool y => x = y
  | .num x, .num y => x = y
  | .str x, .str y => x = y
  | .arr xs, .arr ys => beqL xs ys
  | .obj xs, .obj ys => beqKV xs ys
  | _, _ => false

/-- Elementwise `Json.beq` on lists. -/
def beqL : List Json → List Json → Bool
  | [], [] => true
  | x :: xs, y :: ys => Json.beq x y && beqL xs ys
  | _, _ => false

/-- Elementwise `Json.beq` on key-value lists. -/
def beqKV : List (List Char × Json) → List (List Char × Json) → Bool
  | [], [] => true
  | (k1, v1) :: xs, (k2, v2) :: ys => k1 = k2 && Json.beq v1 v2 && beqKV xs ys
  | _, _ => false

end

/-- Is this value a Python `dict`? -/
def Json.isObj : Json → Bool
  | .obj _ => true
  | _ => false

/-- Python `str.find`: index of the first occurrence, `none` for `-1`. -/
def pyFind (c : Char) : List Char → Option Nat
  | [] => none
  | x :: xs => if x = c then some 0 else (pyFind c xs).map (· + 1)

/-- Python `str.rfind`: index of the last occurrence, `none` for `-1`. -/
def pyRFind (c : Char) : List Char → Option Nat
  | [] => none
  | x :: xs =>
    match pyRFind c xs with
    | some i => some (i + 1)
    | none => if x = c then some 0 else none

/-- Does `needle` occur at the head of `hay`? -/
def leadsWith : List Char → List Char → Bool
  | [], _ => true
  | _ :: _, [] => false
  | a :: as, b :: bs => a = b && leadsWith as bs

/-- Python `needle in hay` on strings: substring containment. -/
def hasSub (needle : List Char) : List Char → Bool
  | [] => needle.isEmpty
  | c :: rest => leadsWith needle (c :: rest) || hasSub needle rest

/-- Consume an expected literal, returning the remainder. -/
def dropLit (lit s : List Char) : Option (List Char) :=
  if leadsWith lit s then some (s.drop lit.length) else none

/-- JSON whitespace, as skipped by Python's `json` decoder. -/
def isJsonWs (c : Char) : Bool := c = ' ' || c = '\t' || c = '\n' || c = '\r'

/-- Drop leading JSON whitespace. -/
def skipWs : List Char → List Char
  | [] => []
  | c :: r => if isJsonWs c then skipWs r else c :: r

/-- Hexadecimal digit value, for `\uXXXX` escapes. -/
def hexVal (c : Char) : Option Nat :=
  if '0' ≤ c ∧ c ≤ '9' then some (c.toNat - '0'.toNat)
  else if 'a' ≤ c ∧ c ≤ 'f' then some (c.toNat - 'a'.toNat + 10)
  else if 'A' ≤ c ∧ c ≤ 'F' then some (c.toNat - 'A'.toNat + 10)
  else none

/-- One-character JSON string escapes. -/
def escChar (c : Char) : Option Char :=
  if c = '"' then some '"'
  else if c = '\\' then some '\\'
  else if c = '/' then some '/'
  else if c = 'b' then some '\x08'
  else if c = 'f' then some '\x0c'
  else if c = 'n' then some '\n'
  else if c = 'r' then some '\r'
  else if c = 't' then some '\t'
  else none

/-- Parse the body of a JSON string (the opening quote already consumed),
in the decoder's strict mode: raw control characters are rejected. -/
def parseStrAux : Nat → List Char → Option (List Char × List Char)
  | 0, _ => none
  | f + 1, s =>
    match s with
    | [] => none
    | c :: r =>
      if c = '"' then some ([], r)
      else if c = '\\' then
        match r with
        | [] => none
        | e :: r2 =>
          match escChar e with
          | some ec => (parseStrAux f r2).map (fun p => (ec :: p.1, p.2))
          | none =>
            if e = 'u' then
              match r2 with
              | a :: b :: c2 :: d :: r3 =>
                match hexVal a, hexVal b, hexVal c2, hexVal d with
                | some ha, some hb, some hc, some hd =>
                  let n := ((ha * 16 + hb) * 16 + hc) * 16 + hd
                  if n < 0xd800 ∨ 0xe000 ≤ n then
                    (parseStrAux f r3).map (fun p => (Char.ofNat n :: p.1, p.2))
                  else none
                | _, _, _, _ => none
              | _ => none
            else none
      else if c.toNat < 0x20 then none
      else (parseStrAux f r).map (fun p => (c :: p.1, p.2))

/-- Longest leading run of decimal digits and the remainder. -/
def spanDigits (s : List Char) : List Char × List Char :=
  (s.takeWhile Char.isDigit, s.dropWhile Char.isDigit)

/-- Integer part of a JSON number: `0`, or a nonzero digit followed by
digits (leading zeros are rejected, as in Python's `json`). -/
def parseIntPart : List Char → Option (List Char × List Char)
  | [] => none
  | c :: r =>
    if c = '0' then some (['0'], r)
    else if c.isDigit then
      let p := spanDigits r
      some (c :: p.1, p.2)
    else none

/-- Optional fractional part `.digits` of a JSON number. -/
def parseFracPart (s : List Char) : Option (List Char × List Char) :=
  match s with
  | '.' :: r =>
    let p := spanDigits r
    if p.1.isEmpty then none else some ('.' :: p.1, p.2)
  | _ => some ([], s)

/-- Optional exponent part `[eE][+-]?digits` of a JSON number. -/
def parseExpPart (s : List Char) : Option (List Char × List Char) :=
  match s with
  | [] => some ([], [])
  | c :: r =>
    if c = 'e' ∨ c = 'E' then
      let q : List Char × List Char :=
        match r with
        | s2 :: r2 => if s2 = '+' ∨ s2 = '-' then ([s2], r2) else ([], r)
        | [] => ([], [])
      let p := spanDigits q.2
      if p.1.isEmpty then none else some (c :: (q.1 ++ p.1), p.2)
    else some ([], c :: r)

/-- Parse a JSON number, returning its lexeme and the remainder. -/
def parseNum (s : List Char) : Option (List Char × List Char) :=
  let q : List Char × List Char :=
    match s with
    | '-' :: r => (['-'], r)
    | _ => ([], s)
  match parseIntPart q.2 with
  | none => none
  | some (ip, s2) =>
    match parseFracPart s2 with
    | none => none
    | some (fp, s3) =>
      match parseExpPart s3 with
      | none => none
      | some (ep, s4) => some (q.1 ++ ip ++ fp ++ ep, s4)

/-- The `\x7b` / `\x7d` characters, used by the object grammar. -/
def braceO : Char := Char.ofNat 123

/-- Closing brace character. -/
def braceC : Char := Char.ofNat 125

mutual

/-- Parse one JSON value after skipping leading whitespace, mirroring the
dispatch of Python's `json` decoder (including its `NaN`/`Infinity`
constants). The fuel argument strictly decreases on every call. -/
def parseValue : Nat → List Char → Option (Json × List Char)
  | 0, _ => none
  | f + 1, s =>
    match skipWs s with
    | [] => none
    | c :: r =>
      if c = '[' then (parseArr f r).map (fun p => (Json.arr p.1, p.2))
      else if c = braceO then (parseObj f r).map (fun p => (Json.obj p.1, p.2))
      else if c = '"' then (parseStrAux f r).map (fun p => (Json.str p.1, p.2))
      else if c = 't' then (dropLit "rue".toList r).map (fun r2 => (Json.bool true, r2))
      else if c = 'f' then (dropLit "alse".toList r).map (fun r2 => (Json.bool false, r2))
      else if c = 'n' then (dropLit "ull".toList r).map (fun r2 => (Json.null, r2))
      else if c = 'N' then (dropLit "aN".toList r).map (fun r2 => (Json.num "NaN".toList, r2))
      else if c = 'I' then
        (dropLit "nfinity".toList r).map (fun r2 => (Json.num "Infinity".toList, r2))
      else if c = '-' then
        match r with
        | 'I' :: _ =>
          (dropLit "Infinity".toList r).map (fun r2 => (Json.num "-Infinity".toList, r2))
        | _ => (parseNum (c :: r)).map (fun p => (Json.num p.1, p.2))
      else if c.isDigit then (parseNum (c :: r)).map (fun p => (Json.num p.1, p.2))
      else none

/-- Parse an array body (the `[` already consumed). -/
def parseArr : Nat → List Char → Option (List Json × List Char)
  | 0, _ => none
  | f + 1, s =>
    match skipWs s with
    | [] => none
    | c :: r => if c = ']' then some ([], r) else parseArrItems f (c :: r)

/-- Parse the comma-separated elements of a non-empty array. -/
def parseArrItems : Nat → List Char → Option (List Json × List Char)
  | 0, _ => none
  | f + 1, s =>
    match parseValue f s with
    | none => none
    | some (v, r) =>
      match skipWs r with
      | [] => none
      | c :: r2 =>
        if c = ',' then (parseArrItems f r2).map (fun p => (v :: p.1, p.2))
        else if c = ']' then some ([v], r2)
        else none

/-- Parse an object body (the opening brace already consumed). -/
def parseObj : Nat → List Char → Option (List (List Char × Json) × List Char)
  | 0, _ => none
  | f + 1, s =>
    match skipWs s with
    | [] => none
    | c :: r => if c = braceC then some ([], r) else parseObjItems f (c :: r)

/-- Parse the comma-separated `"key": value` members of a non-empty object. -/
def parseObjItems : Nat → List Char → Option (List (List Char × Json) × List Char)
  | 0, _ => none
  | f + 1, s =>
    match skipWs s with
    | [] => none
    | c :: r =>
      if c = '"' then
        match parseStrAux f r with
        | none => none
        | some (k, r1) =>
          match skipWs r1 with
          | [] => none
          | c2 :: r2 =>
            if c2 = ':' then
              match parseValue f r2 with
              | none => none
              | some (v, r3) =>
                match skipWs r3 with
                | [] => none
                | c3 :: r4 =>
                  if c3 = ',' then
                    (parseObjItems f r4).map (fun p => ((k, v) :: p.1, p.2))
                  else if c3 = braceC then some ([(k, v)], r4)
                  else none
            else none
      else none

end

/-- Python `json.loads`: decode exactly one JSON value, allowing only
whitespace around it (`none` models a raised `JSONDecodeError`). The fuel
`4 * length + 4` dominates the decoder's recursion depth. -/
def loads (s : List Char) : Option Json :=
  match parseValue (4 * s.length + 4) s with
  | some (v, rest) => if skipWs rest = [] then some v else none
  | none => none

/-- The sanitizer `clean_json_response` (app.py:104-122): slice from the first `[` to the
last `]` and `json.loads` the slice; any failure (missing bracket or a
parse error, caught by the surrounding `try`) yields Python `None`. -/
def clean_json_response (raw : List Char) : Option Json :=
  match pyFind '[' raw, pyRFind ']' raw with
  | some s, some e => loads ((raw.drop s).take (e + 1 - s))
  | _, _ => none

/-- Python `dict` lookup on a parsed JSON object; with duplicate keys the
last occurrence wins, as in `json.loads`. -/
def objGet (kvs : List (List Char × Json)) (k : List Char) : Option Json :=
  match kvs with
  | [] => none
  | (k1, v) :: rest =>
    match objGet rest k with
    | some r => some r
    | none => if k1 = k then some v else none

/-- Field lookup when the value is a `dict`; `none` otherwise. -/
def objGetJ (q : Json) (k : List Char) : Option Json :=
  match q with
  | .obj kvs => objGet kvs k
  | _ => none

/-- Python `key in q` for a string key: defined for dicts (key test),
strings (substring test) and lists (membership test); `none` models the
`TypeError` raised on numbers, booleans and `None`. -/
def pyContains (key : List Char) : Json → Option Bool
  | .obj kvs => some (objGet kvs key).isSome
  | .str s => some (hasSub key s)
  | .arr xs => some (xs.any (fun x => Json.beq (Json.str key) x))
  | .null => none
  | .bool _ => none
  | .num _ => none

/-- Python `q[key]` for a string key: a dict lookup; `none` models the
`TypeError`/`KeyError` raised in every other case. -/
def pyGetItem (q : Json) (key : List Char) : Option Json :=
  match q with
  | .obj kvs => objGet kvs key
  | _ => none

/-- Lookup in the `user_answers` dict (integer keys). -/
def lookupAns (ans : List (Nat × Json)) (i : Nat) : Option Json :=
  match ans with
  | [] => none
  | (k, v) :: rest =>
    match lookupAns rest i with
    | some r => some r
    | none => if k = i then some v else none

/-- Python `enumerate`, starting at index `i`. -/
def enumFrom (i : Nat) : List α → List (Nat × α)
  | [] => []
  | x :: xs => (i, x) :: enumFrom (i + 1) xs

/-- Is a JSON number lexeme the number zero? (`NaN`/`Infinity` are not.) -/
def numLexZero (lex : List Char) : Bool :=
  ((lex.takeWhile (fun c => c ≠ 'e' && c ≠ 'E')).filter Char.isDigit).all (· = '0') &&
    !(lex.any (fun c => c = 'n' || c = 'N' || c = 'I'))

/-- Python truthiness of a JSON-derived value. -/
def Json.pyTruthy : Json → Bool
  | .null => false
  | .bool b => b
  | .num lex => !numLexZero lex
  | .str s => !s.isEmpty
  | .arr xs => !xs.isEmpty
  | .obj kvs => !kvs.isEmpty

/-- Python truthiness of `st.session_state.quiz_questions`, which is either
a decoded JSON value or `None`. -/
def optTruthy : Option Json → Bool
  | none => false
  | some j => j.pyTruthy

/-- The `question` key. -/
def questionKey : List Char := "question".toList

/-- The `options` key. -/
def optionsKey : List Char := "options".toList

/-- The `correct_answer` key. -/
def correctKey : List Char := "correct_answer".toList

/-- The malformed-question guard of the quiz form loop (app.py:235):
`'question' not in q or 'options' not in q or not isinstance(q['options'], list)`,
with Python's short-circuit evaluation. `none` models a raised `TypeError`;
`some none` means the item is flagged and skipped; `some (some opts)` means
the item is rendered with option list `opts`. -/
def checkItem (q : Json) : Option (Option (List Json)) :=
  match pyContains questionKey q with
  | none => none
  | some false => some none
  | some true =>
    match pyContains optionsKey q with
    | none => none
    | some false => some none
    | some true =>
      match pyGetItem q optionsKey with
      | none => none
      | some (Json.arr opts) => some (some opts)
      | some _ => some none

/-- The option value produced by the `st.radio` widget for one rendered
question: the selected option if the selection index is valid, otherwise
the widget's default (the first option); an empty option list yields
Python `None`. -/
def answerFor (options : List Json) (choiceIdx : Nat) : Json :=
  match options.get? choiceIdx with
  | some o => o
  | none =>
    match options.head? with
    | some o => o
    | none => Json.null

/-- The quiz form loop (app.py:233-246) over the enumerated questions:
collects `user_answers` (one entry per rendered question, `sel` giving the
user's selection) and the list of flagged (skipped) indices; `none` models
a `TypeError` escaping the loop and aborting the whole render. -/
def renderLoop (sel : Nat → Nat) : List (Nat × Json) → Option (List (Nat × Json) × List Nat)
  | [] => some ([], [])
  | (i, q) :: rest =>
    match checkItem q with
    | none => none
    | some none => (renderLoop sel rest).map (fun p => (p.1, i :: p.2))
    | some (some opts) =>
      (renderLoop sel rest).map (fun p => ((i, answerFor opts (sel i)) :: p.1, p.2))

/-- The rendered answers of `renderLoop`, phrased per item. -/
def renderedAnswers (sel : Nat → Nat) (l : List (Nat × Json)) : List (Nat × Json) :=
  l.filterMap (fun p =>
    match checkItem p.2 with
    | some (some opts) => some (p.1, answerFor opts (sel p.1))
    | _ => none)

/-- The flagged (skipped) indices of `renderLoop`, phrased per item. -/
def flaggedIdxs (l : List (Nat × Json)) : List Nat :=
  l.filterMap (fun p =>
    match checkItem p.2 with
    | some none => some p.1
    | _ => none)

/-- The grading loop of the submit handler (app.py:253-259): for each
enumerated question, if its index was answered and the question has a
`correct_answer` field whose value equals the recorded answer, one point;
`none` models a `TypeError` raised by `'correct_answer' in q`. -/
def scoreLoop (answers : List (Nat × Json)) : List (Nat × Json) → Nat → Option Nat
  | [], acc => some acc
  | (i, q) :: rest, acc =>
    match lookupAns answers i with
    | none => scoreLoop answers rest acc
    | some a =>
      match pyContains correctKey q with
      | none => none
      | some false => scoreLoop answers rest acc
      | some true =>
        match pyGetItem q correctKey with
        | none => none
        | some c => scoreLoop answers rest (if Json.beq a c then acc + 1 else acc)

/-- The score computed at submit time from the stored questions and the
recorded answers. -/
def computeScore (items : List Json) (answers : List (Nat × Json)) : Option Nat :=
  scoreLoop answers (enumFrom 0 items) 0

/-- One point is awarded for the enumerated item `p` exactly when its index
was answered and the answer equals the item's `correct_answer` field. -/
def answerHit (answers : List (Nat × Json)) (p : Nat × Json) : Bool :=
  match lookupAns answers p.1, objGetJ p.2 correctKey with
  | some a, some c => Json.beq a c
  | _, _ => false

/-- The quiz-related slots of `st.session_state` (app.py:131-140):
`quiz_questions` is a decoded JSON value or Python `None`, `user_answers` an
index-keyed dict, `quiz_score` an optional integer. -/
structure QuizState where
  quiz_questions : Option Json
  user_answers : List (Nat × Json)
  quiz_score : Option Nat

/-- The initial session state: `quiz_questions = []`, `user_answers = ` an
empty dict, `quiz_score = None`. -/
def initQuizState : QuizState :=
  { quiz_questions := some (Json.arr []), user_answers := [], quiz_score := none }

/-- The clearing assignments at app.py:193-195 (and identically at
app.py:287-289): all three slots are overwritten with their empty values. -/
def clearQuizState (_ : QuizState) : QuizState := initQuizState

/-- The Generate Quiz handler (app.py:190-223). `topic` is the text input,
`gw` the Model Gateway outcome (`none` = the call raised and
`get_gemini_response` returned `None` after showing an error). Returns the
new state and whether a user-visible error was surfaced. -/
def generateAction (s : QuizState) (topic : List Char) (gw : Option (List Char)) :
    QuizState × Bool :=
  if topic.isEmpty then (s, false)
  else
    let s1 := clearQuizState s
    match gw with
    | none => (s1, true)
    | some raw =>
      if raw.isEmpty then (s1, false)
      else
        let s2 := { s1 with quiz_questions := clean_json_response raw }
        (s2, !optTruthy s2.quiz_questions)

/-- The Take Another Quiz handler (app.py:285-290): the same clearing
assignments as the generate handler. -/
def retakeAction (_ : QuizState) : QuizState := initQuizState

/-- The submit branch of the quiz form (app.py:250-260): store the answers
collected by the form loop and the computed score. `none` models a crash
(`TypeError` in the form loop or the grading loop) or the branch being
unreachable because `quiz_questions` is not a list. -/
def submitAction (s : QuizState) (sel : Nat → Nat) : Option QuizState :=
  match s.quiz_questions with
  | some (Json.arr qs) =>
    match renderLoop sel (enumFrom 0 qs) with
    | none => none
    | some (collected, _) =>
      match scoreLoop collected (enumFrom 0 qs) 0 with
      | none => none
      | some n => some { s with user_answers := collected, quiz_score := some n }
  | _ => none

/-- The speaker of a conversation turn. -/
inductive Role where
  | user : Role
  | model : Role
deriving DecidableEq

/-- One entry of `st.session_state.chat_history`: a role and the single
element of its `parts` list. -/
structure Turn where
  role : Role
  content : List Char

/-- Modelled from the spec: the Model Gateway wire contract (§4.1) realised
by `get_gemini_response` with a history argument (app.py:82-84, the
external `start_chat`/`send_message` service call is not part of the
source) — the service receives the full ordered history followed by the
new prompt as one more user turn. -/
def gatewayDelivered (history : List Turn) (prompt : List Char) : List Turn :=
  history ++ [{ role := Role.user, content := prompt }]

/-- The message sequence delivered by one conversational send of the
chatbot tab (app.py:164-171): the handler first appends the user prompt to
`chat_history`, then passes that history together with the prompt to the
gateway. -/
def chatbotDelivered (prior : List Turn) (prompt : List Char) : List Turn :=
  gatewayDelivered (prior ++ [{ role := Role.user, content := prompt }]) prompt

/-- The chat-history update of one chatbot send (app.py:164-180): the user
turn is appended unconditionally; the model turn is appended only when the
gateway returned a truthy text (`none` = the call failed). -/
def chatbotStep (history : List Turn) (prompt : List Char) (gw : Option (List Char)) :
    List Turn :=
  let h1 := history ++ [{ role := Role.user, content := prompt }]
  match gw with
  | none => h1
  | some t => if t.isEmpty then h1 else h1 ++ [{ role := Role.model, content := t }]

/-- One user-triggered transition of the quiz session: a Generate Quiz
click (with arbitrary topic and gateway outcome), a successful submit (only
available while `quiz_questions` is truthy), or a Take Another Quiz click
(only shown while a score is displayed). -/
inductive QStep : QuizState → QuizState → Prop where
  | generate (s : QuizState) (topic : List Char) (gw : Option (List Char)) :
      QStep s (generateAction s topic gw).1
  | submit (s s' : QuizState) (sel : Nat → Nat) :
      optTruthy s.quiz_questions = true → submitAction s sel = some s' → QStep s s'
  | retake (s : QuizState) : s.quiz_score ≠ none → QStep s (retakeAction s)

/-- Quiz-session states reachable from the initial session state. -/
inductive QReachable : QuizState → Prop where
  | init : QReachable initQuizState
  | step {s s' : QuizState} : QReachable s → QStep s s' → QReachable s'

/-- Length of the stored question list (0 when it is `None` or not a list). -/
def pyLen : Option Json → Nat
  | some (.arr qs) => qs.length
  | _ => 0

/-- The session invariants of the spec (§3, QuizSession): a score is only
present while the stored questions are a non-empty list, and every answer
key is a valid question index. -/
def quizInv (s : QuizState) : Prop :=
  (s.quiz_score ≠ none → optTruthy s.quiz_questions = true) ∧
    (∀ p ∈ s.user_answers, p.1 < pyLen s.quiz_questions)

/-! ### Helper lemmas -/

theorem pyFind_eq_none {c : Char} : ∀ {l : List Char}, pyFind c l = none ↔ c ∉ l := by
  intro l
  induction l with
  | nil => simp [pyFind]
  | cons x xs ih =>
    by_cases hx : x = c
    · subst hx
      simp [pyFind]
    · simp [pyFind, hx, ih, Ne.symm hx]

theorem pyFind_append {c : Char} {l1 l2 : List Char} (h : c ∉ l1) :
    pyFind c (l1 ++ l2) = (pyFind c l2).map (· + l1.length) := by
  induction l1 with
  | nil => cases h2 : pyFind c l2 <;> simp [h2]
  | cons x xs ih =>
    have hx : x ≠ c := fun hc => h (hc ▸ List.mem_cons_self x xs)
    have hxs : c ∉ xs := fun hc => h (List.mem_cons_of_mem x hc)
    rw [List.cons_append]
    rw [pyFind, if_neg hx, ih hxs]
    cases pyFind c l2 with
    | none => rfl
    | some j =>
      simp [Option.map_some']
      omega

theorem pyFind_head {c : Char} {l : List Char} : pyFind c (c :: l) = some 0 := by
  simp [pyFind]

theorem pyFind_drop {c : Char} : ∀ {l : List Char} {i : Nat},
    pyFind c l = some i → (l.drop i).head? = some c := by
  intro l
  induction l with
  | nil => intro i h; simp [pyFind] at h
  | cons x xs ih =>
    intro i h
    by_cases hx : x = c
    · subst hx
      rw [pyFind, if_pos rfl] at h
      cases h
      simp
    · rw [pyFind, if_neg hx] at h
      rcases Option.map_eq_some'.mp h with ⟨j, hj, rfl⟩
      simpa using ih hj

theorem pyRFind_eq_none {c : Char} : ∀ {l : List Char}, pyRFind c l = none ↔ c ∉ l := by
  intro l
  induction l with
  | nil => simp [pyRFind]
  | cons x xs ih =>
    cases h : pyRFind c xs with
    | some i =>
      have hc : c ∈ xs := by
        by_contra hn
        rw [ih.mpr hn] at h
        cases h
      simp [pyRFind, h, List.mem_cons, hc]
    | none =>
      have hc : c ∉ xs := ih.mp h
      by_cases hx : x = c
      · subst hx
        simp [pyRFind, h]
      · simp [pyRFind, h, hx, List.mem_cons, hc, Ne.symm hx]

theorem pyRFind_append_right {c : Char} {l2 : List Char} (h : c ∉ l2) :
    ∀ {l1 : List Char}, pyRFind c (l1 ++ l2) = pyRFind c l1 := by
  intro l1
  induction l1 with
  | nil => simpa [pyRFind] using pyRFind_eq_none.mpr h
  | cons x xs ih => rw [List.cons_append, pyRFind, ih, pyRFind]

theorem pyRFind_concat {c : Char} : ∀ {l : List Char}, pyRFind c (l ++ [c]) = some l.length := by
  intro l
  induction l with
  | nil => simp [pyRFind]
  | cons x xs ih => simp [pyRFind, ih]

theorem eq_dropLast_concat {α : Type} {a : α} : ∀ {l : List α},
    l.getLast? = some a → l = l.dropLast ++ [a] := by
  intro l
  induction l with
  | nil => intro h; cases h
  | cons x xs ih =>
    intro h
    cases xs with
    | nil =>
      cases h
      rfl
    | cons y t =>
      rw [List.getLast?_cons_cons] at h
      have := ih h
      calc x :: y :: t = x :: ((y :: t).dropLast ++ [a]) := by rw [← this]
        _ = (x :: y :: t).dropLast ++ [a] := by simp

theorem loads_nil : loads ([] : List Char) = none := rfl

theorem parseValue_lsq {f : Nat} {s r : List Char} {p : Json × List Char}
    (hs : skipWs s = '[' :: r) (hp : parseValue f s = some p) :
    ∃ xs, p.1 = Json.arr xs := by
  cases f with
  | zero => cases hp
  | succ f =>
    rw [parseValue, hs] at hp
    dsimp only at hp
    rw [if_pos rfl] at hp
    rcases Option.map_eq_some'.mp hp with ⟨q, _, rfl⟩
    exact ⟨q.1, rfl⟩

theorem loads_arr_of_head {s : List Char} {v : Json}
    (h : loads s = some v) (hh : s.head? = some '[') : ∃ xs, v = Json.arr xs := by
  cases s with
  | nil => cases hh
  | cons c t =>
    cases hh
    have hw : skipWs ('[' :: t) = '[' :: t := by
      rw [skipWs, if_neg]
      decide
    rw [loads] at h
    cases hp : parseValue (4 * ('[' :: t).length + 4) ('[' :: t) with
    | none => rw [hp] at h; cases h
    | some p =>
      obtain ⟨v0, rest⟩ := p
      rw [hp] at h
      dsimp only at h
      by_cases hrest : skipWs rest = []
      · rw [if_pos hrest] at h
        cases h
        exact parseValue_lsq hw hp
      · rw [if_neg hrest] at h
        cases h

theorem enumFrom_mem_snd {α : Type} {p : Nat × α} : ∀ {i : Nat} {l : List α},
    p ∈ enumFrom i l → p.2 ∈ l := by
  intro i l
  induction l generalizing i with
  | nil => intro h; cases h
  | cons x xs ih =>
    intro h
    rw [enumFrom] at h
    rcases List.mem_cons.mp h with h | h
    · subst h
      exact List.mem_cons_self x xs
    · exact List.mem_cons_of_mem x (ih h)

/-! ### Claim theorems -/

/-- Claim C3 (code bug evidence). For a conversational send, the handler
appends the user prompt to `chat_history` before passing that history,
together with the same prompt, to the gateway; under the gateway contract
the delivered sequence therefore ends with the new prompt twice — it never
appears exactly once after the prior history. -/
theorem chatbot_send_delivers_prompt_twice (prior : List Turn) (prompt : List Char) :
    chatbotDelivered prior prompt =
      prior ++ [{ role := Role.user, content := prompt },
                { role := Role.user, content := prompt }] := by
  simp [chatbotDelivered, gatewayDelivered]

/-- Claim C4. When the gateway call of a conversational send fails
(`get_gemini_response` returns `None`), the resulting history is exactly
the prior history plus the dangling user turn: no MODEL turn is appended
(the model turns are unchanged), and the USER turn remains. -/
theorem failed_send_appends_only_user_turn (h : List Turn) (p : List Char) :
    chatbotStep h p none = h ++ [{ role := Role.user, content := p }] ∧
      (chatbotStep h p none).filter (fun t => decide (t.role = Role.model)) =
        h.filter (fun t => decide (t.role = Role.model)) := by
  constructor
  · rfl
  · have h1 : chatbotStep h p none = h ++ [{ role := Role.user, content := p }] := rfl
    rw [h1, List.filter_append]
    simp [List.filter]

/-- Claim C5. If `raw` contains no `[` or no `]`, the sanitizer returns
Python `None` (the `if start != -1 and end != -1` guard falls through): no
quiz items are produced. -/
theorem sanitizer_fails_without_brackets (raw : List Char)
    (h : '[' ∉ raw ∨ ']' ∉ raw) : clean_json_response raw = none := by
  rw [clean_json_response]
  rcases h with h | h
  · rw [pyFind_eq_none.mpr h]
  · rw [pyRFind_eq_none.mpr h]
    cases pyFind '[' raw <;> rfl

/-- Claim C5 witness: the bracket-free input `"no json here"` is rejected. -/
theorem sanitizer_fails_without_brackets_witness :
    clean_json_response ("no json here".toList) = none :=
  sanitizer_fails_without_brackets ("no json here".toList) (Or.inl (by decide))

/-- Claim C7. With a non-empty topic, the generate handler clears
`quiz_questions`, `user_answers`, `quiz_score` before consulting the
gateway: its result is independent of the prior session state, and until a
usable gateway response arrives the state is exactly the cleared
(IDLE-empty) one; the retake handler performs the same clearing, so a
subsequent generate starts from a clean slate. -/
theorem generate_and_retake_clear (s s' : QuizState) (topic : List Char)
    (gw : Option (List Char)) (ht : topic ≠ []) :
    generateAction s topic gw = generateAction s' topic gw ∧
      generateAction s topic (some []) = (initQuizState, false) ∧
      retakeAction s = initQuizState ∧
      initQuizState.quiz_questions = some (Json.arr []) ∧
      initQuizState.user_answers = [] ∧
      initQuizState.quiz_score = none := by
  have hte : topic.isEmpty = false := by
    cases topic with
    | nil => exact absurd rfl ht
    | cons a l => rfl
  refine ⟨?_, ?_, rfl, rfl, rfl, rfl⟩
  · simp [generateAction, hte, clearQuizState]
  · simp [generateAction, hte, clearQuizState]

/-- A sample dirty session state, for the C7 witness. -/
def dirtyState : QuizState :=
  { quiz_questions := none, user_answers := [(5, Json.null)], quiz_score := some 7 }

/-- Claim C7 witness at topic `"t"`, from a dirty prior state. -/
theorem generate_and_retake_clear_witness :
    generateAction dirtyState ("t".toList) (some []) = (initQuizState, false) :=
  (generate_and_retake_clear dirtyState initQuizState ("t".toList) none (by decide)).2.1

/-- The concrete noisy model reply of the C2 example: a JSON array inside a
markdown fence with leading prose. -/
def fencedReply : List Char :=
  "Here you go:\n```json\n[\x7b\"question\":\"Q\",\"options\":[\"A\",\"B\"],\"correct_answer\":\"A\"\x7d]\n```".toList

/-- The quiz item encoded in `fencedReply`. -/
def fencedItem : Json :=
  Json.obj [(questionKey, Json.str "Q".toList),
            (optionsKey, Json.arr [Json.str "A".toList, Json.str "B".toList]),
            (correctKey, Json.str "A".toList)]

/-- Claim C2. A valid JSON array (first character `[`, last character `]`,
decoding to `xs`) embedded between prose that is bracket-free — which is
what makes the surrounding text unrelated to the array — is extracted and
parsed unchanged by the sanitizer; in particular the fenced markdown reply
of the spec yields exactly one quiz item whose `question` is `"Q"`. -/
theorem extract_embedded_array (pre mid post : List Char) (xs : List Json)
    (hpre : '[' ∉ pre) (hpost : ']' ∉ post)
    (hhead : mid.head? = some '[') (hlast : mid.getLast? = some ']')
    (hmid : loads mid = some (Json.arr xs)) :
    clean_json_response (pre ++ mid ++ post) = some (Json.arr xs) ∧
      clean_json_response fencedReply = some (Json.arr [fencedItem]) ∧
      objGetJ fencedItem questionKey = some (Json.str "Q".toList) := by
  refine ⟨?_, by rfl, by rfl⟩
  cases mid with
  | nil => cases hhead
  | cons m0 t =>
    have hm0 : m0 = '[' := by simpa using hhead
    subst hm0
    have hf : pyFind '[' (pre ++ ('[' :: t) ++ post) = some pre.length := by
      rw [List.append_assoc, pyFind_append hpre, List.cons_append, pyFind_head]
      simp
    have hl : ('[' :: t) = ('[' :: t).dropLast ++ [']'] := eq_dropLast_concat hlast
    have hr : pyRFind ']' (pre ++ ('[' :: t) ++ post) =
        some (pre.length + ('[' :: t).dropLast.length) := by
      rw [pyRFind_append_right hpost]
      conv_lhs => rw [hl]
      rw [← List.append_assoc, pyRFind_concat]
      simp
    rw [clean_json_response, hf, hr]
    dsimp only
    have hk : pre.length + ('[' :: t).dropLast.length + 1 - pre.length =
        ('[' :: t).length := by
      rw [List.length_dropLast]
      simp only [List.length_cons]
      omega
    rw [hk, List.append_assoc, List.drop_left, List.take_left]
    exact hmid

/-- Claim C2 witness: `"ab[]cd"` has its embedded empty array extracted. -/
theorem extract_embedded_array_witness :
    clean_json_response ("ab[]cd".toList) = some (Json.arr []) :=
  (extract_embedded_array ("ab".toList) ("[]".toList) ("cd".toList) []
    (by decide) (by decide) (by rfl) (by rfl) (by rfl)).1

/-- Claim C10. Whenever the sanitizer returns a value at all, that value is a
JSON array: the extracted slice starts at the first `[`, so a successful
`json.loads` can only have decoded an array. -/
theorem sanitizer_yields_array (raw : List Char) (v : Json)
    (h : clean_json_response raw = some v) : ∃ xs, v = Json.arr xs := by
  rw [clean_json_response] at h
  cases hf : pyFind '[' raw with
  | none =>
    rw [hf] at h
    dsimp only at h
    cases h
  | some s0 =>
    cases he : pyRFind ']' raw with
    | none =>
      rw [hf, he] at h
      dsimp only at h
      cases h
    | some e0 =>
      rw [hf, he] at h
      dsimp only at h
      cases hk : e0 + 1 - s0 with
      | zero =>
        rw [hk, List.take_zero, loads_nil] at h
        cases h
      | succ k =>
        rw [hk] at h
        have hh : ((raw.drop s0).take (k + 1)).head? = some '[' := by
          rw [List.head?_take]
          simp [pyFind_drop hf]
        exact loads_arr_of_head h hh

/-- Claim C10 witness: the successful extraction from `"x[]y"` is an array. -/
theorem sanitizer_yields_array_witness :
    ∃ xs, Json.arr ([] : List Json) = Json.arr xs :=
  sanitizer_yields_array ("x[]y".toList) (Json.arr []) (by rfl)

/-- The grading loop on a list of enumerated dict items neither raises nor
skips silently: it returns the accumulator plus one point per answered
index whose recorded answer equals the item's `correct_answer`. -/
theorem scoreLoop_obj (answers : List (Nat × Json)) :
    ∀ (l : List (Nat × Json)) (acc : Nat), (∀ p ∈ l, (p.2).isObj = true) →
      scoreLoop answers l acc = some (acc + l.countP (answerHit answers)) := by
  intro l
  induction l with
  | nil =>
    intro acc h
    simp [scoreLoop]
  | cons hd tl ih =>
    intro acc h
    obtain ⟨i, q⟩ := hd
    have hq : q.isObj = true := h (i, q) (List.mem_cons_self _ _)
    have htl : ∀ p ∈ tl, (p.2).isObj = true := fun p hp => h p (List.mem_cons_of_mem _ hp)
    cases q with
    | null => simp [Json.isObj] at hq
    | bool b => simp [Json.isObj] at hq
    | num lex => simp [Json.isObj] at hq
    | str s => simp [Json.isObj] at hq
    | arr elems => simp [Json.isObj] at hq
    | obj kvs =>
      rw [scoreLoop]
      cases ha : lookupAns answers i with
      | none =>
        dsimp only
        have hhit : answerHit answers (i, Json.obj kvs) = false := by
          simp [answerHit, ha]
        rw [ih acc htl, List.countP_cons, hhit]
        simp
      | some a =>
        dsimp only [pyContains]
        cases hg : objGet kvs correctKey with
        | none =>
          dsimp only [Option.isSome]
          have hhit : answerHit answers (i, Json.obj kvs) = false := by
            simp [answerHit, ha, objGetJ, hg]
          rw [ih acc htl, List.countP_cons, hhit]
          simp
        | some c =>
          dsimp only [Option.isSome, pyGetItem]
          rw [hg]
          dsimp only
          have hhit : answerHit answers (i, Json.obj kvs) = Json.beq a c := by
            simp [answerHit, ha, objGetJ, hg]
          rw [ih _ htl, List.countP_cons, hhit]
          by_cases hb : Json.beq a c = true
          · rw [if_pos hb, if_pos hb, Option.some.injEq]
            omega
          · rw [if_neg hb, if_neg hb, Option.some.injEq]
            omega

/-- The two quiz items of the spec's grading example. -/
def gradedItems : List Json :=
  [Json.obj [(optionsKey, Json.arr [Json.str "A".toList, Json.str "B".toList,
                Json.str "C".toList, Json.str "D".toList]),
             (correctKey, Json.str "B".toList)],
   Json.obj [(optionsKey, Json.arr [Json.str "X".toList, Json.str "Y".toList]),
             (correctKey, Json.str "X".toList)]]

/-- The recorded answers of the spec's grading example. -/
def gradedAnswers : List (Nat × Json) :=
  [(0, Json.str "B".toList), (1, Json.str "Y".toList)]

/-- Claim C1. After a submit action on dict quiz items, the stored score is
the number of enumerated indices whose recorded answer equals the item's
`correct_answer` under exact equality (items without a `correct_answer`
field never match, contributing 0); on the spec's concrete example the
grading loop yields score 1. -/
theorem submit_score_counts (s : QuizState) (sel : Nat → Nat) (qs : List Json)
    (s' : QuizState) (hq : s.quiz_questions = some (Json.arr qs))
    (hobj : ∀ q ∈ qs, q.isObj = true) (hs : submitAction s sel = some s') :
    s'.quiz_score = some ((enumFrom 0 qs).countP (answerHit s'.user_answers)) ∧
      computeScore gradedItems gradedAnswers = some 1 := by
  refine ⟨?_, by rfl⟩
  rw [submitAction, hq] at hs
  dsimp only at hs
  cases hr : renderLoop sel (enumFrom 0 qs) with
  | none =>
    rw [hr] at hs
    cases hs
  | some p =>
    obtain ⟨collected, flagged⟩ := p
    rw [hr] at hs
    dsimp only at hs
    have hall : ∀ p ∈ enumFrom 0 qs, (p.2).isObj = true :=
      fun p hp => hobj p.2 (enumFrom_mem_snd hp)
    rw [scoreLoop_obj collected (enumFrom 0 qs) 0 hall] at hs
    cases hs
    simp

/-- The quiz item list for the C1 witness. -/
def oneItemQuiz : List Json :=
  [Json.obj [(questionKey, Json.str "q".toList),
             (optionsKey, Json.arr [Json.str "A".toList]),
             (correctKey, Json.str "A".toList)]]

/-- The session state holding `oneItemQuiz`, before submit. -/
def oneItemState : QuizState :=
  { quiz_questions := some (Json.arr oneItemQuiz), user_answers := [], quiz_score := none }

/-- The session state after submitting `oneItemQuiz` with the default
selection. -/
def oneItemGraded : QuizState :=
  { quiz_questions := some (Json.arr oneItemQuiz),
    user_answers := [(0, Json.str "A".toList)], quiz_score := some 1 }

/-- Claim C1 witness: submitting the one-item quiz stores score 1, the count
of matching indices. -/
theorem submit_score_counts_witness :
    oneItemGraded.quiz_score =
        some ((enumFrom 0 oneItemQuiz).countP (answerHit oneItemGraded.user_answers)) ∧
      computeScore gradedItems gradedAnswers = some 1 :=
  submit_score_counts oneItemState (fun _ => 0) oneItemQuiz oneItemGraded rfl
    (by decide) (by rfl)

/-- Claim C6. When the topic is non-empty and the gateway call fails, or the
gateway text is non-empty but the sanitizer fails or produces an empty
array, the generate handler leaves the session with no active quiz —
`quiz_questions` is `None` or the empty list, hence falsy — with empty
answers and no score, and a user-visible error was surfaced. -/
theorem generate_failure_returns_idle (s : QuizState) (topic : List Char)
    (gw : Option (List Char)) (ht : topic ≠ [])
    (hf : gw = none ∨ ∃ raw, gw = some raw ∧ raw ≠ [] ∧
      (clean_json_response raw = none ∨ clean_json_response raw = some (Json.arr []))) :
    ((generateAction s topic gw).1.quiz_questions = none ∨
      (generateAction s topic gw).1.quiz_questions = some (Json.arr [])) ∧
      optTruthy (generateAction s topic gw).1.quiz_questions = false ∧
      (generateAction s topic gw).1.user_answers = [] ∧
      (generateAction s topic gw).1.quiz_score = none ∧
      (generateAction s topic gw).2 = true := by
  have hte : topic.isEmpty = false := by
    cases topic with
    | nil => exact absurd rfl ht
    | cons a l => rfl
  rcases hf with rfl | ⟨raw, rfl, hraw, hclean⟩
  · simp [generateAction, hte, clearQuizState, initQuizState, optTruthy, Json.pyTruthy]
  · have hre : raw.isEmpty = false := by
      cases raw with
      | nil => exact absurd rfl hraw
      | cons a l => rfl
    rcases hclean with hc | hc <;>
      simp [generateAction, hte, hre, hc, clearQuizState, initQuizState, optTruthy,
        Json.pyTruthy]

/-- Claim C6 witness: a failed gateway call on topic `"t"`. -/
theorem generate_failure_returns_idle_witness :
    ((generateAction initQuizState ("t".toList) none).1.quiz_questions = none ∨
      (generateAction initQuizState ("t".toList) none).1.quiz_questions = some (Json.arr [])) ∧
      optTruthy (generateAction initQuizState ("t".toList) none).1.quiz_questions = false ∧
      (generateAction initQuizState ("t".toList) none).1.user_answers = [] ∧
      (generateAction initQuizState ("t".toList) none).1.quiz_score = none ∧
      (generateAction initQuizState ("t".toList) none).2 = true :=
  generate_failure_returns_idle initQuizState ("t".toList) none (by decide) (Or.inl rfl)

/-- On a dict item the malformed-question guard never raises: the item is
either flagged or rendered with its option list. -/
theorem checkItem_obj (kvs : List (List Char × Json)) :
    checkItem (Json.obj kvs) = some none ∨
      ∃ opts, checkItem (Json.obj kvs) = some (some opts) := by
  rw [checkItem]
  dsimp only [pyContains]
  cases h1 : objGet kvs questionKey with
  | none =>
    dsimp only [Option.isSome]
    left
    rfl
  | some w =>
    dsimp only [Option.isSome]
    cases h2 : objGet kvs optionsKey with
    | none =>
      dsimp only [Option.isSome]
      left
      rfl
    | some v =>
      dsimp only [Option.isSome, pyGetItem]
      rw [h2]
      cases v with
      | arr opts => right; exact ⟨opts, rfl⟩
      | null => left; rfl
      | bool b => left; rfl
      | num lex => left; rfl
      | str s => left; rfl
      | obj o => left; rfl

theorem renderedAnswers_cons_skip {q : Json} (hc : checkItem q = some none)
    (sel : Nat → Nat) (i : Nat) (l : List (Nat × Json)) :
    renderedAnswers sel ((i, q) :: l) = renderedAnswers sel l := by
  simp only [renderedAnswers, List.filterMap_cons, hc]

theorem renderedAnswers_cons_ok {q : Json} {opts : List Json}
    (hc : checkItem q = some (some opts)) (sel : Nat → Nat) (i : Nat)
    (l : List (Nat × Json)) :
    renderedAnswers sel ((i, q) :: l) =
      (i, answerFor opts (sel i)) :: renderedAnswers sel l := by
  simp only [renderedAnswers, List.filterMap_cons, hc]

theorem flaggedIdxs_cons_skip {q : Json} (hc : checkItem q = some none)
    (i : Nat) (l : List (Nat × Json)) :
    flaggedIdxs ((i, q) :: l) = i :: flaggedIdxs l := by
  simp only [flaggedIdxs, List.filterMap_cons, hc]

theorem flaggedIdxs_cons_ok {q : Json} {opts : List Json}
    (hc : checkItem q = some (some opts)) (i : Nat) (l : List (Nat × Json)) :
    flaggedIdxs ((i, q) :: l) = flaggedIdxs l := by
  simp only [flaggedIdxs, List.filterMap_cons, hc]

/-- The quiz form loop on enumerated dict items never raises: it renders
exactly the well-formed items and flags exactly the malformed ones. -/
theorem renderLoop_obj (sel : Nat → Nat) :
    ∀ l : List (Nat × Json), (∀ p ∈ l, (p.2).isObj = true) →
      renderLoop sel l = some (renderedAnswers sel l, flaggedIdxs l) := by
  intro l
  induction l with
  | nil => intro h; rfl
  | cons hd tl ih =>
    intro h
    obtain ⟨i, q⟩ := hd
    have hq : q.isObj = true := h (i, q) (List.mem_cons_self _ _)
    have htl : ∀ p ∈ tl, (p.2).isObj = true := fun p hp => h p (List.mem_cons_of_mem _ hp)
    cases q with
    | null => simp [Json.isObj] at hq
    | bool b => simp [Json.isObj] at hq
    | num lex => simp [Json.isObj] at hq
    | str s => simp [Json.isObj] at hq
    | arr elems => simp [Json.isObj] at hq
    | obj kvs =>
      rw [renderLoop]
      rcases checkItem_obj kvs with hc | ⟨opts, hc⟩
      · rw [hc]
        dsimp only
        rw [ih htl, renderedAnswers_cons_skip hc, flaggedIdxs_cons_skip hc]
        rfl
      · rw [hc]
        dsimp only
        rw [ih htl, renderedAnswers_cons_ok hc, flaggedIdxs_cons_ok hc]
        rfl

/-- Claim C8 (amended). For a sanitized quiz array all of whose elements are
JSON objects, rendering and grading consume items one by one: each
malformed item (missing `question` or `options`, or with non-list
`options`) is flagged and skipped while every other item is rendered, and
grading always completes — no individually malformed object escalates to a
whole-batch failure. (The amendment restricts the claim to object
elements: a non-object element can raise, see the counterexample.) -/
theorem render_and_grade_per_item (items : List Json) (sel : Nat → Nat)
    (hobj : ∀ q ∈ items, q.isObj = true) :
    renderLoop sel (enumFrom 0 items) =
        some (renderedAnswers sel (enumFrom 0 items), flaggedIdxs (enumFrom 0 items)) ∧
      ∀ answers, ∃ n, computeScore items answers = some n := by
  constructor
  · exact renderLoop_obj sel (enumFrom 0 items) (fun p hp => hobj p.2 (enumFrom_mem_snd hp))
  · intro answers
    refine ⟨0 + (enumFrom 0 items).countP (answerHit answers), ?_⟩
    rw [computeScore]
    exact scoreLoop_obj answers (enumFrom 0 items) 0
      (fun p hp => hobj p.2 (enumFrom_mem_snd hp))

/-- Claim C8 counterexample: the sanitizer accepts `"[1]"`, yet its single
(malformed) item is a JSON number, on which `'question' not in q` raises a
`TypeError` — the whole render aborts instead of skipping the item. -/
theorem render_crashes_on_number_item :
    clean_json_response ("[1]".toList) = some (Json.arr [Json.num ['1']]) ∧
      renderLoop (fun _ => 0) (enumFrom 0 [Json.num ['1']]) = none :=
  ⟨rfl, rfl⟩

/-- A two-item quiz whose second object is malformed (no fields). -/
def mixedQuiz : List Json := [fencedItem, Json.obj []]

/-- Claim C8 witness: on `mixedQuiz`, the render loop succeeds, rendering the
well-formed item and flagging the malformed one. -/
theorem render_and_grade_per_item_witness :
    renderLoop (fun _ => 0) (enumFrom 0 mixedQuiz) =
      some (renderedAnswers (fun _ => 0) (enumFrom 0 mixedQuiz),
        flaggedIdxs (enumFrom 0 mixedQuiz)) :=
  (render_and_grade_per_item mixedQuiz (fun _ => 0) (by decide)).1

/-- After a non-empty-topic generate, answers and score hold their cleared
values, whatever the gateway returned. -/
theorem generateAction_clears (s : QuizState) (topic : List Char)
    (gw : Option (List Char)) (ht : topic.isEmpty = false) :
    (generateAction s topic gw).1.quiz_score = none ∧
      (generateAction s topic gw).1.user_answers = [] := by
  rw [generateAction, if_neg (by simp [ht])]
  cases gw with
  | none => exact ⟨rfl, rfl⟩
  | some raw =>
    dsimp only
    by_cases hre : raw.isEmpty = true
    · rw [if_pos hre]
      exact ⟨rfl, rfl⟩
    · rw [if_neg hre]
      exact ⟨rfl, rfl⟩

/-- Every answer collected by the form loop is keyed by one of the
enumerated indices, hence bounded by the offset plus the item count. -/
theorem renderLoop_keys (sel : Nat → Nat) :
    ∀ (qs : List Json) (i : Nat) (c : List (Nat × Json)) (f : List Nat),
      renderLoop sel (enumFrom i qs) = some (c, f) → ∀ p ∈ c, p.1 < i + qs.length := by
  intro qs
  induction qs with
  | nil =>
    intro i c f h p hp
    rw [enumFrom, renderLoop] at h
    cases h
    cases hp
  | cons q qs ih =>
    intro i c f h p hp
    rw [enumFrom, renderLoop] at h
    cases hc : checkItem q with
    | none =>
      rw [hc] at h
      cases h
    | some o =>
      rw [hc] at h
      cases o with
      | none =>
        dsimp only at h
        rcases Option.map_eq_some'.mp h with ⟨⟨c2, f2⟩, h2, heq⟩
        dsimp only at heq
        injection heq with hc2 hf2
        subst hc2
        have := ih (i + 1) c2 f2 h2 p hp
        simp only [List.length_cons]
        omega
      | some opts =>
        dsimp only at h
        rcases Option.map_eq_some'.mp h with ⟨⟨c2, f2⟩, h2, heq⟩
        dsimp only at heq
        injection heq with hc2 hf2
        subst hc2
        rcases List.mem_cons.mp hp with hp | hp
        · subst hp
          simp only [List.length_cons]
          omega
        · have := ih (i + 1) c2 f2 h2 p hp
          simp only [List.length_cons]
          omega

/-- Claim C9. Every quiz-session state reachable through the generate,
submit, and retake operations satisfies the session invariants: a score is
present only while `quiz_questions` is a (truthy) non-empty list — scores
are only ever produced by a submit against such a list, and every other
operation clears the score — and every key of `user_answers` is a valid
question index. -/
theorem quiz_session_invariant (s : QuizState) (h : QReachable s) : quizInv s := by
  induction h with
  | init =>
    constructor
    · intro hs
      exact absurd rfl hs
    · intro p hp
      cases hp
  | step hr hstep ih =>
    rename_i s s'
    cases hstep with
    | generate topic gw =>
      by_cases ht : topic.isEmpty = true
      · have hid : (generateAction s topic gw).1 = s := by
          rw [generateAction, if_pos ht]
        rw [hid]
        exact ih
      · have ht' : topic.isEmpty = false := by simpa using ht
        obtain ⟨hsc, hans⟩ := generateAction_clears s topic gw ht'
        constructor
        · intro hs
          exact absurd hsc hs
        · intro p hp
          rw [hans] at hp
          cases hp
    | submit t sel htr hsub =>
      rw [submitAction] at hsub
      cases hqq : s.quiz_questions with
      | none =>
        rw [hqq] at hsub
        cases hsub
      | some j =>
        rw [hqq] at hsub
        cases j with
        | null => cases hsub
        | bool b => cases hsub
        | num lex => cases hsub
        | str st => cases hsub
        | obj kvs => cases hsub
        | arr qs =>
          dsimp only at hsub
          cases hren : renderLoop sel (enumFrom 0 qs) with
          | none =>
            rw [hren] at hsub
            cases hsub
          | some pr =>
            obtain ⟨collected, flagged⟩ := pr
            rw [hren] at hsub
            dsimp only at hsub
            cases hsc : scoreLoop collected (enumFrom 0 qs) 0 with
            | none =>
              rw [hsc] at hsub
              cases hsub
            | some n =>
              rw [hsc] at hsub
              dsimp only at hsub
              cases hsub
              constructor
              · intro _
                rw [hqq] at htr
                exact htr
              · intro p hp
                have hb := renderLoop_keys sel qs 0 collected flagged hren p hp
                simpa [pyLen] using hb
    | retake hscore =>
      constructor
      · intro hs
        exact absurd rfl hs
      · intro p hp
        cases hp

/-- Claim C9 witness: the invariants hold in the initial session state. -/
theorem quiz_session_invariant_witness : quizInv initQuizState :=
  quiz_session_invariant initQuizState QReachable.init

end ConvoQuest
